import Mathlib

/-!
Verification of the vue-valibot form-submission controller.

This file shallowly embeds the submission controller of `src/index.ts`
(the `useForm` factory and its inner `submit` state machine) and the
reactive validation watcher `useParse`, and proves / refutes the frozen
behavioural claims about them.

Modelling conventions:

* The four observable cells (`submitting`, `submitted`, `errors`) are
  explicit state (`FormState`); the `form` cell is read-only to `submit`
  except for its native-validity side effect, so its contents at call
  time are a parameter (`formValid : Option Bool`, `none` = no form
  element bound, `some b` = `checkValidity()` returns `b`).  Passing the
  state in and out also models caller-shared cells: a cell shared with
  another controller is simply a prestate this controller did not write.
* JavaScript exceptions are `Except String`; a thrown designated
  `SubmitError` is distinguished structurally (`CbOutcome.throwSubmit`),
  mirroring the `instanceof SubmitError` check.
* The valibot engine is external to the repository; it is consumed
  through the documented contract
  `safeParseAsync(schema, value) -> success(output) | failure(issues)`
  and `flatten(issues) -> { root, nested }`, embedded as `ParseOutcome`
  and `flatten` below.
* `V` is the type of JavaScript values flowing through input/output
  positions; `default : V` (from `Inhabited V`) plays the role of
  `undefined` produced by `toValue(undefined)` when no input source is
  configured.  Where the undefined/defined distinction itself matters
  (the `useParse` cells), values are instantiated at `Option W` with
  `none` playing `undefined`.
-/

namespace VueValibot

/-- Flattened error report, valibot's `FlatErrors` shape
`{ root?: string[], nested?: { [dottedPath]: string[] } }`.
An empty report (no messages at all) is still a defined object,
hence still truthy in JavaScript. -/
structure FlatErrors where
  root : List String
  nested : List (String × List String)
deriving DecidableEq, Repr

/-- A raw validation issue as reported by the engine: a field path
(empty for root-level issues) and a message. -/
structure Issue where
  path : List String
  message : String
deriving DecidableEq, Repr

/-- Dotted key for a nested error path. -/
def dotPath (p : List String) : String :=
  String.intercalate "." p

/-- Append a message to the entry for a key in the nested mapping,
creating the entry if absent. -/
def addNested (key msg : String) :
    List (String × List String) → List (String × List String)
  | [] => [(key, [msg])]
  | (k, ms) :: rest =>
    if k = key then (k, ms ++ [msg]) :: rest
    else (k, ms) :: addNested key msg rest

/-- The engine's `flatten` contract: root-level issues (empty path) are
collected into `root`, field issues are grouped by dotted path into
`nested`.  Embedded from the documented external contract
`flatten(issues) -> { root?: string[], nested?: mapping<path, string[]> }`. -/
def flatten (issues : List Issue) : FlatErrors :=
  issues.foldl
    (fun acc i =>
      match i.path with
      | [] => { acc with root := acc.root ++ [i.message] }
      | _ => { acc with nested := addNested (dotPath i.path) i.message acc.nested })
    ⟨[], []⟩

/-- The designated submission error (`class SubmitError extends Error`),
carrying a pre-built error report in its `errors` field. -/
structure SubmitError where
  errors : FlatErrors
deriving DecidableEq, Repr

/-- Result of `safeParseAsync`: success with the (possibly transformed)
output, or failure with the raw issue list. -/
inductive ParseOutcome (O : Type) where
  | success (output : O)
  | failure (issues : List Issue)
deriving DecidableEq, Repr

/-- How one invocation of a user submit callback terminates. -/
inductive CbOutcome (R : Type) where
  | ret (value : R)
  | throwSubmit (err : SubmitError)
  | throwOther (msg : String)
deriving DecidableEq, Repr

/-- Observable behaviour of one invocation of a user submit callback.
`setErrors` is the value the `errors` cell holds when the callback
finishes or throws (the cell is always `none` when the callback starts,
having been cleared in the reset phase); `outcome` is how the callback
terminates. -/
structure CbResult (R : Type) where
  setErrors : Option FlatErrors
  outcome : CbOutcome R

/-- Behaviour of a configured `schema` option: `getterThrows` models an
exception raised while obtaining the schema object
(`typeof schema === "function" ? schema() : schema`); `parse` models
`safeParseAsync(schemaObject, input)`, which may itself throw. -/
structure SchemaBehavior (V : Type) where
  getterThrows : Option String := none
  parse : V → Except String (ParseOutcome V)

/-- The options object accepted by `useForm` (behavioural fields only;
the caller-supplied cell options are modelled by the explicit state
threading).  `input` / `fields` carry the result of `toValue` on the
configured source — `Except.error` models a throwing getter; `none`
means the option is absent.  `onErrors` maps the report it is given to
`none` (returns normally) or `some msg` (throws). -/
structure Options (V R A : Type) where
  input : Option (Except String V) := none
  fields : Option (Except String V) := none
  schema : Option (SchemaBehavior V) := none
  submit : Option (V → A → CbResult R) := none
  onErrors : Option (FlatErrors → Option String) := none

/-- The argument of `useForm`: nothing, an options object, or a bare
callback (the shortcut variant). -/
inductive UseFormArg (V R A : Type) where
  | noArg
  | options (o : Options V R A)
  | callback (cb : A → CbResult R)

/-- Normalisation of `useForm`'s argument into the internal `options`
record: `(typeof optionsOrSubmit === "function" ? undefined : optionsOrSubmit) ?? {}`. -/
def mkOptions : UseFormArg V R A → Options V R A
  | .options o => o
  | _ => {}

/-- Normalisation of `useForm`'s argument into the internal
`directSubmit` callback:
`typeof optionsOrSubmit === "function" ? optionsOrSubmit : undefined`. -/
def mkDirect : UseFormArg V R A → Option (A → CbResult R)
  | .callback cb => some cb
  | _ => none

/-- The three mutable boolean/report cells of one controller (or shared
between controllers): `submitting`, `submitted`, `errors`.  The `errors`
cell holds `none` for `undefined`; any `some` report is a defined,
truthy object. -/
structure FormState where
  submitting : Bool
  submitted : Bool
  errors : Option FlatErrors
deriving DecidableEq, Repr

/-- Shape of the single user-callback invocation performed by one
`submit` run: options mode passes `res ? res.output : input` followed by
the call-time arguments, the shortcut mode passes the call-time
arguments only. -/
inductive CallShape (V A : Type) where
  | withValue (value : V) (args : A)
  | argsOnly (args : A)
deriving DecidableEq, Repr

/-- Full observable outcome of one `submit` call: the final cell state,
the settled/rejected promise (`Except.error` = an exception propagated
to the caller, `Except.ok r` = resolution with `r`, `none` standing for
`undefined`), whether `reportValidity()` fired, the input the engine was
invoked on (`none` = engine not invoked), the callback invocation (if
any) and the arguments of every `onErrors` call, in order. -/
structure RunResult (V R A : Type) where
  state : FormState
  result : Except String (Option R)
  reportedValidity : Bool
  validated : Option V
  callbackCall : Option (CallShape V A)
  onErrorsCalls : List FlatErrors
deriving Repr

variable {V R A W : Type}

/-- Line 217: `const input = toValue(options.input ?? options.fields)`.
With neither option configured, `toValue(undefined)` yields `undefined`
(the `default` element of `V`). -/
def derefInput [Inhabited V] (o : Options V R A) : Except String V :=
  match o.input with
  | some iv => iv
  | none =>
    match o.fields with
    | some fv => fv
    | none => .ok default

/-- Behaviour of `options.onErrors?.(e)`: absent `onErrors` is a no-op
returning normally. -/
def onErrorsOutcome (o : Options V R A) (e : FlatErrors) : Option String :=
  match o.onErrors with
  | some f => f e
  | none => none

/-- The first argument `res ? res.output : input` the options-mode
callback would receive, if the invocation phase is reached from input
`input`; `none` when validation fails or throws first (lines 218-232). -/
def invokeValue (o : Options V R A) (input : V) : Option V :=
  match o.schema with
  | none => some input
  | some sb =>
    match sb.getterThrows with
    | some _ => none
    | none =>
      match sb.parse input with
      | .ok (.success out) => some out
      | _ => none

/-- Lines 241-246: after the invocation settles without an uncaught
exception, `if (errors.value)` decides between `onErrors` (submitted
stays false) and `submitted.value = true`; the return value is passed
through either way.  The test is definedness (truthiness) of the cell,
not non-emptiness of the report. -/
def resolveErrors (o : Options V R A) (s : FormState) (validated : Option V)
    (call : Option (CallShape V A)) (retVal : Option R) : RunResult V R A :=
  match s.errors with
  | some e =>
    match o.onErrors with
    | some f =>
      match f e with
      | some m => ⟨s, .error m, false, validated, call, [e]⟩
      | none => ⟨s, .ok retVal, false, validated, call, [e]⟩
    | none => ⟨s, .ok retVal, false, validated, call, []⟩
  | none => ⟨{ s with submitted := true }, .ok retVal, false, validated, call, []⟩

/-- Lines 228-246: apply one callback invocation's observable behaviour.
A thrown `SubmitError` is caught, its report stored into the `errors`
cell and the return value replaced by `undefined`; any other exception
leaves the cells as the callback wrote them and rejects the promise
(the `finally` in `runSubmit` still lowers `submitting`). -/
def finishInvoke (o : Options V R A) (s : FormState) (validated : Option V)
    (call : Option (CallShape V A)) (r : CbResult R) : RunResult V R A :=
  match r.outcome with
  | .ret v => resolveErrors o { s with errors := r.setErrors } validated call (some v)
  | .throwSubmit err =>
      resolveErrors o { s with errors := some err.errors } validated call none
  | .throwOther m => ⟨{ s with errors := r.setErrors }, .error m, false, validated, call, []⟩

/-- Lines 228-246, invocation phase: `directSubmit` (shortcut mode) is
called with the call-time arguments only; `options.submit` is called
with the first value followed by the call-time arguments; an absent
callback yields `undefined` with no cell writes. -/
def runInvoke (o : Options V R A) (direct : Option (A → CbResult R))
    (s : FormState) (validated : Option V) (value : V) (args : A) :
    RunResult V R A :=
  match direct with
  | some cb => finishInvoke o s validated (some (.argsOnly args)) (cb args)
  | none =>
    match o.submit with
    | some cb => finishInvoke o s validated (some (.withValue value args)) (cb value args)
    | none => resolveErrors o s validated none none

/-- Lines 216-247, the `try` block: dereference the input, evaluate the
schema (getter, then engine); on validation failure store the flattened
issues and call `onErrors`; otherwise run the invocation phase with
`res ? res.output : input`.  Exceptions short-circuit as rejections. -/
def runTryBody [Inhabited V] (o : Options V R A) (direct : Option (A → CbResult R))
    (s : FormState) (args : A) : RunResult V R A :=
  match derefInput o with
  | .error m => ⟨s, .error m, false, none, none, []⟩
  | .ok input =>
    match o.schema with
    | none => runInvoke o direct s none input args
    | some sb =>
      match sb.getterThrows with
      | some m => ⟨s, .error m, false, none, none, []⟩
      | none =>
        match sb.parse input with
        | .error m => ⟨s, .error m, false, some input, none, []⟩
        | .ok (.success out) => runInvoke o direct s (some input) out args
        | .ok (.failure issues) =>
          match o.onErrors with
          | some f =>
            match f (flatten issues) with
            | some m =>
              ⟨{ s with errors := some (flatten issues) }, .error m, false,
                some input, none, [flatten issues]⟩
            | none =>
              ⟨{ s with errors := some (flatten issues) }, .ok none, false,
                some input, none, [flatten issues]⟩
          | none =>
            ⟨{ s with errors := some (flatten issues) }, .ok none, false,
              some input, none, []⟩

/-- The `finally` clause (lines 248-250): lower the `submitting` cell on
whatever outcome the `try` body produced. -/
def lowerSubmitting (r : RunResult V R A) : RunResult V R A :=
  { r with state := { r.state with submitting := false } }

/-- Lines 205-251, the full `submit` state machine: re-entrancy guard,
reset phase, native-validation gate, raise `submitting`, `try` body,
and the `finally` that lowers `submitting` on every exit path of the
`try`. -/
def runSubmit [Inhabited V] (o : Options V R A) (direct : Option (A → CbResult R))
    (formValid : Option Bool) (s : FormState) (args : A) : RunResult V R A :=
  if s.submitting then
    ⟨s, .ok none, false, none, none, []⟩
  else
    let s1 : FormState := { s with submitted := false, errors := none }
    if formValid = some false then
      ⟨s1, .ok none, true, none, none, []⟩
    else
      lowerSubmitting (runTryBody o direct { s1 with submitting := true } args)

/-- One call of the `submit` function returned by `useForm`. -/
def useFormSubmit [Inhabited V] (arg : UseFormArg V R A) (formValid : Option Bool)
    (s : FormState) (args : A) : RunResult V R A :=
  runSubmit (mkOptions arg) (mkDirect arg) formValid s args

/-- The three cells republished by the reactive validation watcher
`useParse`: the raw result (`ref()`, `none` until the first run), the
parsed output and the flattened errors.  Cell contents are JavaScript
values, so the output cell is `Option W` with `none` for `undefined`. -/
structure ParseState (W : Type) where
  result : Option (ParseOutcome (Option W))
  output : Option W
  errors : Option FlatErrors
deriving DecidableEq, Repr

/-- One re-evaluation of the `watchEffect` body of `useParse`: run
`safeParse` on the freshly dereferenced schema and input (its outcome is
`res`), publish it into the result cell, and set output/errors according
to success.  On success `output.value = res.output` — which is itself
`undefined` when the schema produced no output. -/
def parseStep (res : ParseOutcome (Option W)) (_prev : ParseState W) :
    ParseState W :=
  { result := some res
  , output :=
      match res with
      | .success o => o
      | .failure _ => none
  , errors :=
      match res with
      | .success _ => none
      | .failure issues => some (flatten issues) }

/-!
Claim theorems.
-/

/-- Empty options object (`useForm({})`), at concrete types, for
evaluating the embedding on concrete inputs. -/
def optsNone : Options Nat Nat Nat := {}

/-- Options whose callback throws a plain (non-designated) error. -/
def optsThrow : Options Nat Nat Nat :=
  { submit := some fun _ _ => ⟨none, .throwOther "Fail"⟩ }

/-- C1: if the `submitting` cell holds true at the moment of the call
(raised by this controller or by another controller sharing the cell),
`submit` returns undefined and performs no state mutation: the cells are
unchanged and neither `reportValidity`, nor validation, nor the user
callback, nor `onErrors` runs. -/
theorem submit_guard_noop [Inhabited V] (o : Options V R A) (direct : Option (A → CbResult R))
    (fv : Option Bool) (s : FormState) (args : A) (h : s.submitting = true) :
    runSubmit o direct fv s args = ⟨s, .ok none, false, none, none, []⟩ := by
  simp [runSubmit, h]

/-- Witness for C1 at a concrete mid-submission state. -/
theorem submit_guard_noop_witness :
    runSubmit optsNone none none ⟨true, true, none⟩ 0
      = ⟨⟨true, true, none⟩, .ok none, false, none, none, []⟩ :=
  submit_guard_noop optsNone none none ⟨true, true, none⟩ 0 rfl

/-- C3: once an attempt passes the re-entrancy guard, the `submitting`
cell is false again on every exit path of `submit` — normal return,
early return on validation failure or the native gate, and any
exception thrown by dereferencing the input, evaluating the schema
getter, the validation engine, the user callback or `onErrors`. -/
theorem submit_submitting_cleanup [Inhabited V] (o : Options V R A)
    (direct : Option (A → CbResult R)) (fv : Option Bool) (s : FormState)
    (args : A) (h : s.submitting = false) :
    (runSubmit o direct fv s args).state.submitting = false := by
  obtain ⟨su, sm, er⟩ := s
  simp only [FormState.submitting] at h
  subst h
  simp only [runSubmit]
  split
  · simp_all
  · split <;> rfl

/-- Witness for C3 on a configuration whose callback throws a plain
error: the promise rejects, yet `submitting` is lowered. -/
theorem submit_submitting_cleanup_witness :
    (runSubmit optsThrow none none ⟨false, false, none⟩ 0).state.submitting
      = false :=
  submit_submitting_cleanup optsThrow none none ⟨false, false, none⟩ 0 rfl

/-- Mutual exclusion of the `submitted` cell and a defined `errors`
cell: a state either ends submitted or has errors, never both. -/
def stateInv (st : FormState) : Prop :=
  (st.submitted = true → st.errors = none)
    ∧ (st.errors ≠ none → st.submitted = false)

/-- Helper: the post-invocation resolution preserves `submitted = false`
except when it finds the `errors` cell undefined, in which case it sets
`submitted` with no errors present. -/
theorem stateInv_resolveErrors (o : Options V R A) (s : FormState)
    (validated : Option V) (call : Option (CallShape V A)) (retVal : Option R)
    (hsub : s.submitted = false) :
    stateInv (resolveErrors o s validated call retVal).state := by
  cases herr : s.errors with
  | none => simp [stateInv, resolveErrors, herr]
  | some e =>
    cases ho : o.onErrors with
    | none => simp [stateInv, resolveErrors, herr, ho, hsub]
    | some f =>
      cases hf : f e <;> simp [stateInv, resolveErrors, herr, ho, hf, hsub]

/-- Helper: applying one callback invocation's behaviour keeps the
mutual-exclusion invariant from a reset state. -/
theorem stateInv_finishInvoke (o : Options V R A) (s : FormState)
    (validated : Option V) (call : Option (CallShape V A)) (r : CbResult R)
    (hsub : s.submitted = false) :
    stateInv (finishInvoke o s validated call r).state := by
  cases hro : r.outcome with
  | ret v =>
    simp only [finishInvoke, hro]
    exact stateInv_resolveErrors _ _ _ _ _ hsub
  | throwSubmit err =>
    simp only [finishInvoke, hro]
    exact stateInv_resolveErrors _ _ _ _ _ hsub
  | throwOther m => simp [stateInv, finishInvoke, hro, hsub]

/-- Helper: the invocation phase keeps the mutual-exclusion invariant
from a reset state. -/
theorem stateInv_runInvoke (o : Options V R A)
    (direct : Option (A → CbResult R)) (s : FormState) (validated : Option V)
    (value : V) (args : A) (hsub : s.submitted = false) :
    stateInv (runInvoke o direct s validated value args).state := by
  cases direct with
  | some cb => exact stateInv_finishInvoke _ _ _ _ _ hsub
  | none =>
    cases hcb : o.submit with
    | some cb =>
      simp only [runInvoke, hcb]
      exact stateInv_finishInvoke _ _ _ _ _ hsub
    | none =>
      simp only [runInvoke, hcb]
      exact stateInv_resolveErrors _ _ _ _ _ hsub

/-- Helper: the whole `try` body keeps the mutual-exclusion invariant
from a reset state. -/
theorem stateInv_runTryBody [Inhabited V] (o : Options V R A)
    (direct : Option (A → CbResult R)) (s : FormState) (args : A)
    (hsub : s.submitted = false) :
    stateInv (runTryBody o direct s args).state := by
  unfold runTryBody
  repeat' split
  all_goals
    first
      | exact stateInv_runInvoke _ _ _ _ _ _ hsub
      | simp [stateInv, hsub]

/-- C2: for every attempt that passes the re-entrancy guard and runs to
completion (the promise resolves rather than rejects), the final state
never has `submitted = true` together with a defined error report:
`submitted = true` implies the `errors` cell is undefined, and a defined
`errors` cell implies `submitted = false`. -/
theorem submit_submitted_errors_exclusion [Inhabited V] (o : Options V R A)
    (direct : Option (A → CbResult R)) (fv : Option Bool) (s : FormState)
    (args : A) (hs : s.submitting = false)
    (_hdone : ∃ r, (runSubmit o direct fv s args).result = Except.ok r) :
    stateInv (runSubmit o direct fv s args).state := by
  simp only [runSubmit, hs, Bool.false_eq_true, if_false]
  split
  · simp [stateInv]
  · have h := stateInv_runTryBody o direct
      { s with submitted := false, errors := none, submitting := true } args rfl
    simpa [stateInv, lowerSubmitting] using h

/-- Witness for C2 on a concrete completed attempt. -/
theorem submit_submitted_errors_exclusion_witness :
    stateInv (runSubmit optsNone none none ⟨false, false, none⟩ 0).state :=
  submit_submitted_errors_exclusion optsNone none none ⟨false, false, none⟩ 0
    rfl ⟨none, rfl⟩

/-- Helper: an attempt that passes the guard and the native gate, whose
input dereferences to `input`, and whose validation phase proceeds
(no schema, or schema success with first-argument value `v`) is exactly
the invocation phase run from the raised-and-reset state, with
`submitting` lowered at the end. -/
theorem runSubmit_invoke_eq [Inhabited V] (o : Options V R A)
    (direct : Option (A → CbResult R)) (fv : Option Bool)
    (s : FormState) (args : A) (input v : V)
    (hs : s.submitting = false) (hf : fv ≠ some false)
    (hin : derefInput o = .ok input) (hv : invokeValue o input = some v) :
    runSubmit o direct fv s args =
      lowerSubmitting (runInvoke o direct ⟨true, false, none⟩
        (o.schema.map fun _ => input) v args) := by
  obtain ⟨su, sm, er⟩ := s
  simp only [FormState.submitting] at hs
  subst hs
  simp only [runSubmit, Bool.false_eq_true, if_false, if_neg hf]
  congr 1
  unfold runTryBody
  rw [hin]
  cases hsc : o.schema with
  | none =>
    simp only [invokeValue, hsc] at hv
    cases hv
    rfl
  | some sb =>
    simp only [invokeValue, hsc] at hv
    cases hg : sb.getterThrows with
    | some m => rw [hg] at hv; cases hv
    | none =>
      rw [hg] at hv
      cases hp : sb.parse input with
      | error m => rw [hp] at hv; cases hv
      | ok res =>
        rw [hp] at hv
        cases res with
        | success out =>
          cases hv
          simp only [hg, hp]
          rfl
        | failure issues => cases hv

/-- C4: during the invocation phase, a callback throwing the designated
`SubmitError` has its carried report stored into the `errors` cell, the
promise resolves to undefined (no exception propagates), and `onErrors`
is invoked with that report when configured; a callback throwing any
other error has that error propagate to the caller unchanged, the
`errors` cell is left exactly as the callback wrote it (no conversion
into a report), and `onErrors` is not invoked. -/
theorem submit_callback_exception_channel [Inhabited V] (o : Options V R A)
    (fv : Option Bool) (s : FormState) (args : A) (cb : V → A → CbResult R)
    (input v : V) (hs : s.submitting = false) (hf : fv ≠ some false)
    (hin : derefInput o = .ok input) (hv : invokeValue o input = some v)
    (hcb : o.submit = some cb) :
    (∀ setE err, cb v args = ⟨setE, .throwSubmit err⟩ →
        onErrorsOutcome o err.errors = none →
        (runSubmit o none fv s args).result = .ok none
          ∧ (runSubmit o none fv s args).state.errors = some err.errors
          ∧ (runSubmit o none fv s args).onErrorsCalls
              = if o.onErrors.isSome then [err.errors] else [])
      ∧ ∀ setE m, cb v args = ⟨setE, .throwOther m⟩ →
        (runSubmit o none fv s args).result = .error m
          ∧ (runSubmit o none fv s args).state.errors = setE
          ∧ (runSubmit o none fv s args).onErrorsCalls = [] := by
  rw [runSubmit_invoke_eq o none fv s args input v hs hf hin hv]
  constructor
  · intro setE err hrun hon
    cases ho : o.onErrors with
    | none =>
      simp [runInvoke, hcb, hrun, finishInvoke, resolveErrors, ho, lowerSubmitting]
    | some f =>
      have hfe : f err.errors = none := by
        simpa [onErrorsOutcome, ho] using hon
      simp [runInvoke, hcb, hrun, finishInvoke, resolveErrors, ho, hfe,
        lowerSubmitting]
  · intro setE m hrun
    simp [runInvoke, hcb, hrun, finishInvoke, lowerSubmitting]

/-- Options whose callback throws the designated submission error
carrying the report with root message Input required. -/
def optsSubmitErr : Options Nat Nat Nat :=
  { submit := some fun _ _ => ⟨none, .throwSubmit ⟨⟨["Input required."], []⟩⟩⟩
  , onErrors := some fun _ => none }

/-- Witness for C4: a concrete callback throwing the designated error
resolves to undefined with the carried report stored and reported. -/
theorem submit_callback_exception_channel_witness :
    (runSubmit optsSubmitErr none none ⟨false, false, none⟩ 0).result = .ok none
      ∧ (runSubmit optsSubmitErr none none ⟨false, false, none⟩ 0).state.errors
          = some ⟨["Input required."], []⟩ :=
  have h := submit_callback_exception_channel optsSubmitErr none
    ⟨false, false, none⟩ 0
    (fun _ _ => ⟨none, .throwSubmit ⟨⟨["Input required."], []⟩⟩⟩) 0 0
    rfl (by decide) rfl rfl rfl
  have h2 := h.1 none ⟨⟨["Input required."], []⟩⟩ rfl rfl
  ⟨h2.1, h2.2.1⟩

/-- C5: when a schema is configured and the engine reports failure, the
flattened issue list is stored into the `errors` cell, `onErrors` (when
configured) is invoked with it, the promise resolves to undefined, and
the user submit callback is never invoked. -/
theorem submit_validation_failure_path [Inhabited V] (o : Options V R A)
    (direct : Option (A → CbResult R)) (fv : Option Bool) (s : FormState)
    (args : A) (sb : SchemaBehavior V) (input : V) (issues : List Issue)
    (hs : s.submitting = false) (hf : fv ≠ some false)
    (hschema : o.schema = some sb) (hg : sb.getterThrows = none)
    (hin : derefInput o = .ok input)
    (hp : sb.parse input = .ok (.failure issues))
    (hon : onErrorsOutcome o (flatten issues) = none) :
    (runSubmit o direct fv s args).result = .ok none
      ∧ (runSubmit o direct fv s args).state.errors = some (flatten issues)
      ∧ (runSubmit o direct fv s args).callbackCall = none
      ∧ (runSubmit o direct fv s args).state.submitted = false
      ∧ (runSubmit o direct fv s args).onErrorsCalls
          = if o.onErrors.isSome then [flatten issues] else [] := by
  obtain ⟨su, sm, er⟩ := s
  simp only [FormState.submitting] at hs
  subst hs
  cases ho : o.onErrors with
  | none =>
    simp [runSubmit, if_neg hf, runTryBody, hin, hschema, hg, hp, ho,
      lowerSubmitting]
  | some f =>
    have hfe : f (flatten issues) = none := by
      simpa [onErrorsOutcome, ho] using hon
    simp [runSubmit, if_neg hf, runTryBody, hin, hschema, hg, hp, ho, hfe,
      lowerSubmitting]

/-- Schema behaviour rejecting every input with one field issue. -/
def sbFail : SchemaBehavior Nat :=
  { parse := fun _ => .ok (.failure [⟨["foo"], "Please enter foo."⟩]) }

/-- Options with the failing schema, a callback and an `onErrors`. -/
def optsValFail : Options Nat Nat Nat :=
  { schema := some sbFail
  , submit := some fun v a => ⟨none, .ret (v + a)⟩
  , onErrors := some fun _ => none }

/-- Witness for C5 on a concrete failing validation. -/
theorem submit_validation_failure_path_witness :
    (runSubmit optsValFail none none ⟨false, false, none⟩ 0).result = .ok none
      ∧ (runSubmit optsValFail none none ⟨false, false, none⟩ 0).state.errors
          = some (flatten [⟨["foo"], "Please enter foo."⟩])
      ∧ (runSubmit optsValFail none none ⟨false, false, none⟩ 0).callbackCall
          = none
      ∧ (runSubmit optsValFail none none ⟨false, false, none⟩ 0).state.submitted
          = false
      ∧ (runSubmit optsValFail none none ⟨false, false, none⟩ 0).onErrorsCalls
          = if optsValFail.onErrors.isSome then [flatten [⟨["foo"], "Please enter foo."⟩]]
            else [] :=
  submit_validation_failure_path optsValFail none none ⟨false, false, none⟩ 0
    sbFail 0 [⟨["foo"], "Please enter foo."⟩] rfl (by decide) rfl rfl rfl rfl rfl

/-- Counterexample to C6 as stated: with a bound form whose native check
fails and a prestate with `submitted = true`, the rejected attempt has
already reset `submitted` to false — the reset phase (lines 209-210)
runs before the native gate (lines 211-214), so `submitted` IS reset in
the native-gate-rejection path. -/
theorem submit_native_gate_cex :
    (runSubmit optsNone none (some false) ⟨false, true, none⟩ 0).state.submitted
        = false
      ∧ (runSubmit optsNone none (some false) ⟨false, true, none⟩ 0).reportedValidity
        = true :=
  ⟨rfl, rfl⟩

/-- C6 (amended): when a form handle is present and its native validity
check fails, the attempt returns before `submitting` is raised — but
after the reset phase, so `submitted` is reset to false and `errors` is
cleared; `reportValidity` fires and nothing else runs. -/
theorem submit_native_gate_after_reset [Inhabited V] (o : Options V R A)
    (direct : Option (A → CbResult R)) (s : FormState) (args : A)
    (hs : s.submitting = false) :
    runSubmit o direct (some false) s args
      = ⟨⟨false, false, none⟩, .ok none, true, none, none, []⟩ := by
  obtain ⟨su, sm, er⟩ := s
  simp only [FormState.submitting] at hs
  subst hs
  simp [runSubmit]

/-- Witness for the amended C6: a gate-rejected attempt starting from
`submitted = true` with a stale error report ends reset and reported. -/
theorem submit_native_gate_after_reset_witness :
    runSubmit optsNone none (some false) ⟨false, true, some ⟨["x"], []⟩⟩ 0
      = ⟨⟨false, false, none⟩, .ok none, true, none, none, []⟩ :=
  submit_native_gate_after_reset optsNone none ⟨false, true, some ⟨["x"], []⟩⟩ 0 rfl

/-- C8: on every attempt that reaches the invocation phase (schema
absent, or schema success with first-argument value `v`), a callback
that both returns a value and leaves a report in the `errors` cell has
`submitted` left false and `onErrors` invoked, yet its return value is
still what `submit` resolves with (error state and return value are
independent channels); and when no schema is configured the value
passed to the callback is exactly the dereferenced input. -/
theorem submit_manual_errors_channels [Inhabited V] (o : Options V R A)
    (fv : Option Bool) (s : FormState) (args : A) (cb : V → A → CbResult R)
    (input v : V) (e : FlatErrors) (r : R)
    (hs : s.submitting = false) (hf : fv ≠ some false)
    (hin : derefInput o = .ok input) (hv : invokeValue o input = some v)
    (hcb : o.submit = some cb) (hrun : cb v args = ⟨some e, .ret r⟩)
    (hon : onErrorsOutcome o e = none) :
    (runSubmit o none fv s args).result = .ok (some r)
      ∧ (runSubmit o none fv s args).state.submitted = false
      ∧ (runSubmit o none fv s args).state.errors = some e
      ∧ (runSubmit o none fv s args).callbackCall
          = some (.withValue v args)
      ∧ (runSubmit o none fv s args).onErrorsCalls
          = (if o.onErrors.isSome then [e] else [])
      ∧ (o.schema = none → v = input) := by
  have hlast : o.schema = none → v = input := by
    intro hsch
    simp only [invokeValue, hsch, Option.some.injEq] at hv
    exact hv.symm
  rw [runSubmit_invoke_eq o none fv s args input v hs hf hin hv]
  cases ho : o.onErrors with
  | none =>
    refine ⟨?_, ?_, ?_, ?_, ?_, hlast⟩ <;>
      simp [runInvoke, hcb, hrun, finishInvoke, resolveErrors, ho,
        lowerSubmitting]
  | some f =>
    have hfe : f e = none := by simpa [onErrorsOutcome, ho] using hon
    refine ⟨?_, ?_, ?_, ?_, ?_, hlast⟩ <;>
      simp [runInvoke, hcb, hrun, finishInvoke, resolveErrors, ho, hfe,
        lowerSubmitting]

/-- Options mirroring the manual-errors test: input 10, a schema that
validates successfully (transforming the value to 11), a callback that
stores a report and still returns 42, and an `onErrors`. -/
def optsManualSchema : Options Nat Nat Nat :=
  { input := some (.ok 10)
  , schema := some { parse := fun v => .ok (.success (v + 1)) }
  , submit := some fun _ _ => ⟨some ⟨["Failed to submit."], []⟩, .ret 42⟩
  , onErrors := some fun _ => none }

/-- Witness for C8 on a schema-configured attempt whose validation
succeeds: the report is surfaced, `submitted` stays false, yet the
promise resolves with the returned 42, and the callback received the
validated output. -/
theorem submit_manual_errors_channels_witness :
    (runSubmit optsManualSchema none none ⟨false, false, none⟩ 0).result
        = .ok (some 42)
      ∧ (runSubmit optsManualSchema none none ⟨false, false, none⟩ 0).state.submitted
        = false
      ∧ (runSubmit optsManualSchema none none ⟨false, false, none⟩ 0).state.errors
        = some ⟨["Failed to submit."], []⟩
      ∧ (runSubmit optsManualSchema none none ⟨false, false, none⟩ 0).callbackCall
        = some (.withValue 11 0)
      ∧ (runSubmit optsManualSchema none none ⟨false, false, none⟩ 0).onErrorsCalls
        = (if optsManualSchema.onErrors.isSome
            then [⟨["Failed to submit."], []⟩] else [])
      ∧ (optsManualSchema.schema = none → 11 = 10) :=
  submit_manual_errors_channels optsManualSchema none ⟨false, false, none⟩ 0
    (fun _ _ => ⟨some ⟨["Failed to submit."], []⟩, .ret 42⟩) 10 11
    ⟨["Failed to submit."], []⟩ 42 rfl (by decide) rfl rfl rfl rfl rfl

/-- The value the `errors` cell holds when an attempt arrives at the
post-invocation resolution (line 241): `some c` = resolution reached
with the cell holding `c` (the callback's write for a normal return,
the caught designated error's report for a thrown `SubmitError`, still
undefined when no callback is configured); `none` = the invocation
throws an undeclared error, so the resolution is never reached. -/
def invocationCell (o : Options V R A) (direct : Option (A → CbResult R))
    (v : V) (args : A) : Option (Option FlatErrors) :=
  match direct with
  | some cb =>
    match (cb args).outcome with
    | .ret _ => some (cb args).setErrors
    | .throwSubmit err => some (some err.errors)
    | .throwOther _ => none
  | none =>
    match o.submit with
    | some cb =>
      match (cb v args).outcome with
      | .ret _ => some (cb v args).setErrors
      | .throwSubmit err => some (some err.errors)
      | .throwOther _ => none
    | none => some none

/-- Helper: the post-invocation resolution sets `submitted` exactly when
the `errors` cell is undefined, and otherwise passes the cell's value
(whatever report it is) to `onErrors` when configured. -/
theorem resolveErrors_truthiness (o : Options V R A) (s : FormState)
    (validated : Option V) (call : Option (CallShape V A)) (retVal : Option R)
    (hsub : s.submitted = false) :
    (resolveErrors o s validated call retVal).state.submitted
        = s.errors.isNone
      ∧ ∀ e, s.errors = some e →
          (resolveErrors o s validated call retVal).onErrorsCalls
            = if o.onErrors.isSome then [e] else [] := by
  cases herr : s.errors with
  | none => simp [resolveErrors, herr]
  | some e0 =>
    cases ho : o.onErrors with
    | none => simp [resolveErrors, herr, ho, hsub]
    | some f =>
      cases hfe : f e0 <;> simp [resolveErrors, herr, ho, hfe, hsub]

/-- C10: the post-invocation resolution tests the `errors` cell for
definedness (truthiness), not non-emptiness: on every attempt that
reaches it (either mode, callback configured or not, returning or
throwing the designated error), `submitted` ends true exactly when the
cell is undefined at that point; any defined value it holds — including
a report with no messages — keeps `submitted` false and is the argument
of the `onErrors` call when `onErrors` is configured. -/
theorem submit_errors_truthiness [Inhabited V] (o : Options V R A)
    (direct : Option (A → CbResult R)) (fv : Option Bool) (s : FormState)
    (args : A) (input v : V) (c : Option FlatErrors)
    (hs : s.submitting = false) (hf : fv ≠ some false)
    (hin : derefInput o = .ok input) (hv : invokeValue o input = some v)
    (hc : invocationCell o direct v args = some c) :
    (runSubmit o direct fv s args).state.submitted = c.isNone
      ∧ ∀ e, c = some e →
          (runSubmit o direct fv s args).onErrorsCalls
            = if o.onErrors.isSome then [e] else [] := by
  rw [runSubmit_invoke_eq o direct fv s args input v hs hf hin hv]
  cases direct with
  | some cb =>
    simp only [invocationCell] at hc
    cases hout : (cb args).outcome with
    | ret rv =>
      rw [hout] at hc
      cases hc
      have h := resolveErrors_truthiness o
        ⟨true, false, (cb args).setErrors⟩ (o.schema.map fun _ => input)
        (some (.argsOnly args)) (some rv) rfl
      simpa [runInvoke, finishInvoke, hout, lowerSubmitting] using h
    | throwSubmit err =>
      rw [hout] at hc
      cases hc
      have h := resolveErrors_truthiness o
        ⟨true, false, some err.errors⟩ (o.schema.map fun _ => input)
        (some (.argsOnly args)) none rfl
      simpa [runInvoke, finishInvoke, hout, lowerSubmitting] using h
    | throwOther m =>
      rw [hout] at hc
      cases hc
  | none =>
    simp only [invocationCell] at hc
    cases hcb : o.submit with
    | some cb =>
      simp only [hcb] at hc
      cases hout : (cb v args).outcome with
      | ret rv =>
        rw [hout] at hc
        cases hc
        have h := resolveErrors_truthiness o
          ⟨true, false, (cb v args).setErrors⟩ (o.schema.map fun _ => input)
          (some (.withValue v args)) (some rv) rfl
        simpa [runInvoke, hcb, finishInvoke, hout, lowerSubmitting] using h
      | throwSubmit err =>
        rw [hout] at hc
        cases hc
        have h := resolveErrors_truthiness o
          ⟨true, false, some err.errors⟩ (o.schema.map fun _ => input)
          (some (.withValue v args)) none rfl
        simpa [runInvoke, hcb, finishInvoke, hout, lowerSubmitting] using h
      | throwOther m =>
        rw [hout] at hc
        cases hc
    | none =>
      simp only [hcb] at hc
      cases hc
      have h := resolveErrors_truthiness o ⟨true, false, none⟩
        (o.schema.map fun _ => input) none none rfl
      simpa [runInvoke, hcb, lowerSubmitting] using h

/-- Options mirroring the schema-configured tests, with a callback that
stores the message-free report (the nested-empty-object shape) and
returns 1: input 10, a schema validating successfully to 11, and an
`onErrors`. -/
def optsEmptySchema : Options Nat Nat Nat :=
  { input := some (.ok 10)
  , schema := some { parse := fun v => .ok (.success (v + 1)) }
  , submit := some fun _ _ => ⟨some ⟨[], []⟩, .ret 1⟩
  , onErrors := some fun _ => none }

/-- Witness for C10 on a schema-configured attempt whose callback stores
the message-free but defined report: `submitted` stays false and
`onErrors` receives the empty report. -/
theorem submit_errors_truthiness_witness :
    (runSubmit optsEmptySchema none none ⟨false, false, none⟩ 0).state.submitted
        = false
      ∧ (runSubmit optsEmptySchema none none ⟨false, false, none⟩ 0).onErrorsCalls
        = [⟨[], []⟩] :=
  have h := submit_errors_truthiness optsEmptySchema none none
    ⟨false, false, none⟩ 0 10 11 (some ⟨[], []⟩)
    rfl (by decide) rfl rfl rfl
  ⟨h.1, h.2 ⟨[], []⟩ rfl⟩

/-- Callback over JavaScript-like values (`none` = `undefined`) that
records exactly the arguments it received. -/
def cbRecord : Option Nat → Nat → CbResult (Option Nat × Nat) :=
  fun v a => ⟨none, .ret (v, a)⟩

/-- Options-mode configuration with a callback but with neither an input
source nor a schema configured. -/
def optsNoInput : Options (Option Nat) (Option Nat × Nat) Nat :=
  { submit := some cbRecord }

/-- C7, behaviour of the code at the failing input: an options-mode
controller with neither input nor schema configured still prepends a
synthetic leading first argument — the dereferenced absent input, i.e.
`undefined` (`none`) — to the call-time arguments, instead of passing
the arguments positionally as-is.  This contradicts the claim, the
repository's own test (`tests/args.test.ts`, "without input") and the
changelog entry for 2.0.0; only the bare-callback shortcut passes the
arguments through unchanged. -/
theorem submit_no_input_prepends_undefined :
    (useFormSubmit (.options optsNoInput) none ⟨false, false, none⟩ 7).callbackCall
        = some (.withValue none 7)
      ∧ (useFormSubmit (.options optsNoInput) none ⟨false, false, none⟩ 7).result
        = .ok (some (none, 7)) :=
  ⟨rfl, rfl⟩

/-- Counterexample to C9 as stated: a successful validation whose output
is itself `undefined` (e.g. an optional schema validating `undefined`)
leaves BOTH the parsed-output cell and the error cell undefined — not
exactly one of them defined. -/
theorem parse_success_undefined_output_cex :
    (parseStep (ParseOutcome.success (none : Option Nat)) ⟨none, none, none⟩).output
        = none
      ∧ (parseStep (ParseOutcome.success (none : Option Nat)) ⟨none, none, none⟩).errors
        = none
      ∧ (parseStep (ParseOutcome.success (none : Option Nat)) ⟨none, none, none⟩).result
        = some (.success none) :=
  ⟨rfl, rfl, rfl⟩

/-- C9 (amended): every re-evaluation of the watcher publishes the
latest raw result into the result cell; on success the output cell holds
exactly the success output (which may itself be undefined) and the error
cell is undefined; on failure the output cell is undefined and the error
cell holds the flattened issues.  Hence at most one — not always exactly
one — of the output/error cells is defined. -/
theorem parseStep_republishes (res : ParseOutcome (Option W))
    (p : ParseState W) :
    (parseStep res p).result = some res
      ∧ (match res with
          | .success o =>
              (parseStep res p).output = o ∧ (parseStep res p).errors = none
          | .failure issues =>
              (parseStep res p).output = none
                ∧ (parseStep res p).errors = some (flatten issues))
      ∧ ((parseStep res p).output.isSome = false
          ∨ (parseStep res p).errors.isSome = false) := by
  cases res <;> simp [parseStep]

end VueValibot
